import Mathlib

/-!
Shallow embedding of the Dorahacks WCHL personal-health-records canister
(src/src/lib.rs) and verification of its specification claims.

Principals are modelled by their textual form (a String); the anonymous
principal is the distinguished text "2vxsx-fae", so Principal.to_text is
the identity in this model.  The stable BTree map from principals to
record vectors is modelled as an association list with unique keys;
StableBTreeMap.get returning Option and insert replacing the previous
value are mirrored by storeLookup and storeInsert.  Timestamps are u64
nanoseconds from the IC system clock, modelled as Nat (the only
arithmetic is division by 1000000000, which cannot overflow).
-/

namespace HealthRecords

/-- Mirrors struct HealthRecord of src/src/lib.rs (u64 fields as Nat). -/
structure HealthRecord where
  id : String
  title : String
  record_type : String
  date : Nat
  encrypted_url : String
  file_size : Option Nat
  created_at : Nat
deriving DecidableEq, Repr

/-- Mirrors struct AddRecordRequest of src/src/lib.rs. -/
structure AddRecordRequest where
  title : String
  record_type : String
  encrypted_url : String
  file_size : Option Nat
deriving DecidableEq, Repr

/-- Mirrors struct ApiResponse of src/src/lib.rs. -/
structure ApiResponse where
  success : Bool
  message : String
  data : Option (List HealthRecord)
deriving DecidableEq, Repr

/-- Textual form of Principal.anonymous on the Internet Computer. -/
def anonymousPrincipal : String := "2vxsx-fae"

/-- The USER_RECORDS StableBTreeMap, as an association list from the
principal text to that owner record vector.  Genuine map states have
pairwise distinct keys (storeKeysNodup below). -/
def Store := List (String × List HealthRecord)

instance : DecidableEq Store := by
  unfold Store
  infer_instance

/-- StableBTreeMap.get: the value stored under key p, if any. -/
def storeLookup (s : Store) (p : String) : Option (List HealthRecord) :=
  match s with
  | [] => none
  | kv :: rest => if kv.1 = p then some kv.2 else storeLookup rest p

/-- records.get(caller).unwrap_or_default(): the stored vector or []. -/
def storeGet (s : Store) (p : String) : List HealthRecord :=
  (storeLookup s p).getD []

/-- StableBTreeMap.insert: replace the value under key p, or add the
entry when the key is absent. -/
def storeInsert (s : Store) (p : String) (v : List HealthRecord) : Store :=
  match s with
  | [] => [(p, v)]
  | kv :: rest =>
    if kv.1 = p then (p, v) :: rest else kv :: storeInsert rest p v

/-- A well-formed map state: keys are pairwise distinct. -/
def storeKeysNodup (s : Store) : Prop :=
  (s.map Prod.fst).Nodup

/-- Rust str::trim: strip whitespace from both ends of the string
(whitespace per Char.isWhitespace; executable model). -/
def strTrim (s : String) : String :=
  String.mk
    (((s.data.dropWhile Char.isWhitespace).reverse.dropWhile
        Char.isWhitespace).reverse)

/-- fn generate_record_id (src/src/lib.rs lines 73-75):
format with user.to_text(), an underscore, and the timestamp. -/
def generate_record_id (user : String) (timestamp : Nat) : String :=
  user ++ "_" ++ toString timestamp

/-- fn get_current_timestamp (src/src/lib.rs lines 78-80): the system
time in nanoseconds divided down to seconds. -/
def get_current_timestamp (time_ns : Nat) : Nat :=
  time_ns / 1000000000

/-- The HealthRecord that add_record constructs (src/src/lib.rs lines
113-124): current_time is the clock in seconds, the id comes from
generate_record_id, title and record_type are stored trimmed, and date
and created_at both carry current_time. -/
def mkRecord (caller : String) (time_ns : Nat) (request : AddRecordRequest) :
    HealthRecord :=
  let current_time := get_current_timestamp time_ns
  { id := generate_record_id caller current_time
    title := strTrim request.title
    record_type := strTrim request.record_type
    date := current_time
    encrypted_url := request.encrypted_url
    file_size := request.file_size
    created_at := current_time }

/-- fn add_record (src/src/lib.rs lines 84-139).  The ambient caller
and system time are passed explicitly; returns the response paired with
the store after the call. -/
def add_record (st : Store) (caller : String) (time_ns : Nat)
    (request : AddRecordRequest) : ApiResponse × Store :=
  if caller = anonymousPrincipal then
    ({ success := false
       message := "Anonymous users cannot add records"
       data := none }, st)
  else if (strTrim request.title).isEmpty then
    ({ success := false
       message := "Title cannot be empty"
       data := none }, st)
  else if (strTrim request.record_type).isEmpty then
    ({ success := false
       message := "Record type cannot be empty"
       data := none }, st)
  else
    let new_record := mkRecord caller time_ns request
    let user_records := storeGet st caller
    ({ success := true
       message := "Record added successfully"
       data := none },
     storeInsert st caller (user_records ++ [new_record]))

/-- fn get_my_records (src/src/lib.rs lines 143-165). -/
def get_my_records (st : Store) (caller : String) : ApiResponse :=
  if caller = anonymousPrincipal then
    { success := false
      message := "Authentication required"
      data := none }
  else
    let user_records := storeGet st caller
    { success := true
      message := "Found " ++ toString user_records.length ++ " records"
      data := some user_records }

/-- fn get_record_by_id (src/src/lib.rs lines 169-198): linear scan of
the caller own vector for the first record with a matching id. -/
def get_record_by_id (st : Store) (caller : String) (record_id : String) :
    ApiResponse :=
  if caller = anonymousPrincipal then
    { success := false
      message := "Authentication required"
      data := none }
  else
    match (storeGet st caller).find? (fun r => r.id == record_id) with
    | some record =>
      { success := true
        message := "Record found"
        data := some [record] }
    | none =>
      { success := false
        message := "Record not found or access denied"
        data := none }

/-- fn delete_record (src/src/lib.rs lines 202-235): Vec.retain keeps
exactly the records whose id differs from record_id; the vector is
written back only when the length shrank. -/
def delete_record (st : Store) (caller : String) (record_id : String) :
    ApiResponse × Store :=
  if caller = anonymousPrincipal then
    ({ success := false
       message := "Authentication required"
       data := none }, st)
  else
    let user_records := storeGet st caller
    let retained := user_records.filter (fun r => r.id != record_id)
    if retained.length < user_records.length then
      ({ success := true
         message := "Record deleted successfully"
         data := none }, storeInsert st caller retained)
    else
      ({ success := false
         message := "Record not found or access denied"
         data := none }, st)

/-- fn get_record_count (src/src/lib.rs lines 239-250). -/
def get_record_count (st : Store) (caller : String) : Nat :=
  if caller = anonymousPrincipal then 0
  else (storeGet st caller).length

/-- fn health_check (src/src/lib.rs lines 254-256). -/
def health_check : String := "Health Records Backend is running"

/-- Modelled from the spec: the durable storage substrate is external
to src/ (ic_stable_structures), so persistence is modelled per section 6
of the spec.  persistStore snapshots every (key, sequence) entry of the
Store to durable storage. -/
def persistStore (s : Store) : List (String × List HealthRecord) := s

/-- Modelled from the spec: the initialization/reload step performed
once at process start rebuilds the Store by inserting every persisted
entry into a fresh map, with no operator intervention. -/
def reloadStore (snapshot : List (String × List HealthRecord)) : Store :=
  snapshot.foldl (fun acc kv => storeInsert acc kv.1 kv.2) []

/-! ### Store lemmas -/

theorem storeLookup_insert_self (s : Store) (p : String)
    (v : List HealthRecord) : storeLookup (storeInsert s p v) p = some v := by
  induction s with
  | nil => simp [storeInsert, storeLookup]
  | cons kv rest ih =>
    by_cases h : kv.1 = p
    · simp [storeInsert, h, storeLookup]
    · simp [storeInsert, h, storeLookup, ih]

theorem storeLookup_insert_other (s : Store) (p q : String)
    (v : List HealthRecord) (h : q ≠ p) :
    storeLookup (storeInsert s p v) q = storeLookup s q := by
  have hpq : p ≠ q := Ne.symm h
  induction s with
  | nil => simp [storeInsert, storeLookup, hpq]
  | cons kv rest ih =>
    by_cases hk : kv.1 = p
    · subst hk
      simp [storeInsert, storeLookup, hpq]
    · simp [storeInsert, hk, storeLookup, ih]

theorem storeGet_insert_self (s : Store) (p : String)
    (v : List HealthRecord) : storeGet (storeInsert s p v) p = v := by
  simp [storeGet, storeLookup_insert_self]

theorem storeGet_insert_other (s : Store) (p q : String)
    (v : List HealthRecord) (h : q ≠ p) :
    storeGet (storeInsert s p v) q = storeGet s q := by
  simp [storeGet, storeLookup_insert_other s p q v h]

theorem storeLookup_eq_none_of_not_mem (s : Store) (p : String)
    (h : p ∉ s.map Prod.fst) : storeLookup s p = none := by
  induction s with
  | nil => rfl
  | cons kv rest ih =>
    simp only [List.map_cons, List.mem_cons] at h
    push_neg at h
    have h1 : kv.1 ≠ p := Ne.symm h.1
    simp [storeLookup, h1, ih h.2]

theorem storeLookup_reload_aux (snap : List (String × List HealthRecord)) :
    ∀ (acc : Store) (p : String), (snap.map Prod.fst).Nodup →
      storeLookup (snap.foldl (fun a kv => storeInsert a kv.1 kv.2) acc) p =
        ((storeLookup snap p).elim (storeLookup acc p) some) := by
  induction snap with
  | nil => intro acc p _; rfl
  | cons kv rest ih =>
    intro acc p hnd
    simp only [List.map_cons, List.nodup_cons] at hnd
    rw [List.foldl_cons, ih (storeInsert acc kv.1 kv.2) p hnd.2]
    by_cases hp : kv.1 = p
    · subst hp
      have hrest : storeLookup rest kv.1 = none :=
        storeLookup_eq_none_of_not_mem rest kv.1 hnd.1
      simp [storeLookup, hrest, storeLookup_insert_self]
    · have hne : p ≠ kv.1 := fun h2 => hp h2.symm
      simp [storeLookup, hp, storeLookup_insert_other acc kv.1 p kv.2 hne]

theorem storeLookup_reload (s : Store) (p : String) (h : storeKeysNodup s) :
    storeLookup (reloadStore (persistStore s)) p = storeLookup s p := by
  rw [reloadStore, persistStore, storeLookup_reload_aux s [] p h]
  cases storeLookup s p <;> rfl

/-! ### Concrete fixtures for counterexamples and witnesses -/

/-- The add request of the worked example in section 8 of the spec. -/
def bloodTestRequest : AddRecordRequest :=
  { title := "Blood Test"
    record_type := "Lab Result"
    encrypted_url := "ipfs://abc"
    file_size := some 1024 }

/-- A record with id alice_1000 (first of a duplicate-id pair). -/
def recDupA : HealthRecord :=
  { id := "alice_1000", title := "A", record_type := "T", date := 1000,
    encrypted_url := "u1", file_size := none, created_at := 1000 }

/-- A second record with the same id alice_1000. -/
def recDupB : HealthRecord :=
  { id := "alice_1000", title := "B", record_type := "T", date := 1000,
    encrypted_url := "u2", file_size := none, created_at := 1000 }

/-- A record with a different id. -/
def recOther : HealthRecord :=
  { id := "alice_1001", title := "C", record_type := "T", date := 1001,
    encrypted_url := "u3", file_size := none, created_at := 1001 }

/-- A store in which the owner alice holds a duplicate-id pair followed
by a third record. -/
def dupStore : Store := [("alice", [recDupA, recDupB, recOther])]

/-! ### Claims -/

/-- Claim C1 counterexample: with two records sharing the id
alice_1000, delete removes both of them, not only the first, so the
remaining sequence is [recOther] instead of the first-removal result
[recDupB, recOther] that the claim predicts. -/
theorem delete_record_first_only_counterexample :
    storeGet (delete_record dupStore "alice" "alice_1000").2 "alice" =
      [recOther] ∧
    storeGet (delete_record dupStore "alice" "alice_1000").2 "alice" ≠
      [recDupB, recOther] := by
  decide

/-- Claim C1 (amended): for a non-anonymous owner and an id present in
the owner sequence, delete reports success and removes every record
whose id matches (the first and only one when ids are unique within
the sequence), preserving the relative order of the remaining records:
the new sequence is exactly the old one filtered to the non-matching
records. -/
theorem delete_record_removes_all_matching (st : Store) (O rid : String)
    (hO : O ≠ anonymousPrincipal) (hmem : ∃ r ∈ storeGet st O, r.id = rid) :
    (delete_record st O rid).1.success = true ∧
    storeGet (delete_record st O rid).2 O =
      (storeGet st O).filter (fun r => r.id != rid) := by
  have hlt : ((storeGet st O).filter (fun r => r.id != rid)).length <
      (storeGet st O).length := by
    rw [List.length_filter_lt_length_iff_exists]
    obtain ⟨r, hr, hid⟩ := hmem
    exact ⟨r, hr, by simp [hid]⟩
  simp [delete_record, hO, hlt, storeGet_insert_self]

theorem delete_record_removes_all_matching_witness :
    (delete_record dupStore "alice" "alice_1000").1.success = true :=
  (delete_record_removes_all_matching dupStore "alice" "alice_1000"
    (by decide) (by decide)).1

/-- Claim C4 counterexample: at the worked example of the spec (owner
alice, the Blood Test request, clock at second 1000) the add call
succeeds but its response carries data = none, so the created record is
not returned to the caller. -/
theorem add_record_returns_no_data_counterexample :
    (add_record [] "alice" 1000000000000 bloodTestRequest).1.success = true ∧
    (add_record [] "alice" 1000000000000 bloodTestRequest).1.data = none := by
  decide

/-- Claim C4 (amended): a successful add stores the created record but
returns no record data in the response; the stored record id is the
owner textual identity and the current timestamp in seconds joined by
an underscore, its date and created_at both equal that timestamp, and
the id is a pure function of owner and timestamp with no random or
counter component. -/
theorem add_record_id_deterministic (st : Store) (O : String)
    (time_ns : Nat) (req : AddRecordRequest) (hO : O ≠ anonymousPrincipal)
    (ht : (strTrim req.title).isEmpty = false)
    (hc : (strTrim req.record_type).isEmpty = false) :
    (add_record st O time_ns req).1.success = true ∧
    (add_record st O time_ns req).1.data = none ∧
    storeGet (add_record st O time_ns req).2 O =
      storeGet st O ++ [mkRecord O time_ns req] ∧
    (mkRecord O time_ns req).id =
      O ++ "_" ++ toString (get_current_timestamp time_ns) ∧
    (mkRecord O time_ns req).date = get_current_timestamp time_ns ∧
    (mkRecord O time_ns req).created_at = get_current_timestamp time_ns := by
  simp [add_record, hO, ht, hc, mkRecord, generate_record_id,
    storeGet_insert_self]

theorem add_record_id_deterministic_witness :
    (mkRecord "alice" 1000000000000 bloodTestRequest).id = "alice_1000" := by
  have h := (add_record_id_deterministic [] "alice" 1000000000000
    bloodTestRequest (by decide) (by decide) (by decide)).2.2.2.1
  rw [h]
  decide

/-- Claim C5: deleting an id with no matching record in the owner
sequence fails with NotFound (the not-found message) and leaves the
store unchanged, so a subsequent list returns exactly the sequence from
before the delete. -/
theorem delete_record_not_found (st : Store) (O rid : String)
    (hO : O ≠ anonymousPrincipal) (hmem : ∀ r ∈ storeGet st O, r.id ≠ rid) :
    (delete_record st O rid).1.success = false ∧
    (delete_record st O rid).1.message = "Record not found or access denied" ∧
    (delete_record st O rid).2 = st ∧
    get_my_records (delete_record st O rid).2 O = get_my_records st O := by
  have hfil : (storeGet st O).filter (fun r => r.id != rid) = storeGet st O := by
    rw [List.filter_eq_self]
    intro a ha
    simp [hmem a ha]
  simp [delete_record, hO, hfil]

theorem delete_record_not_found_witness :
    (delete_record dupStore "alice" "bob_999").1.success = false :=
  (delete_record_not_found dupStore "alice" "bob_999" (by decide)
    (by decide)).1

/-- Claim C2: for a non-anonymous owner and a request whose trimmed
title and category are non-empty, a successful add appends exactly one
new record to the end of the owner sequence (creating the sequence if
absent), that record carries the trimmed title and category, and all
previously stored records are unchanged, listed in the same order. -/
theorem add_record_appends (st : Store) (O : String) (time_ns : Nat)
    (req : AddRecordRequest) (hO : O ≠ anonymousPrincipal)
    (ht : (strTrim req.title).isEmpty = false)
    (hc : (strTrim req.record_type).isEmpty = false) :
    (add_record st O time_ns req).1.success = true ∧
    storeLookup (add_record st O time_ns req).2 O =
      some (storeGet st O ++ [mkRecord O time_ns req]) ∧
    (mkRecord O time_ns req).title = strTrim req.title ∧
    (mkRecord O time_ns req).record_type = strTrim req.record_type ∧
    (get_my_records (add_record st O time_ns req).2 O).data =
      some (storeGet st O ++ [mkRecord O time_ns req]) := by
  simp [add_record, get_my_records, hO, ht, hc, mkRecord,
    storeLookup_insert_self, storeGet_insert_self]

theorem add_record_appends_witness :
    (add_record [] "alice" 1000000000000 bloodTestRequest).1.success = true :=
  (add_record_appends [] "alice" 1000000000000 bloodTestRequest (by decide)
    (by decide) (by decide)).1

/-- Claim C3: add fails exactly when the caller is the anonymous
principal (Unauthenticated, surfaced as the anonymous-user message) or
when the trimmed title or category is empty (InvalidInput, surfaced as
the corresponding empty-field message); every failure leaves the store
completely unchanged. -/
theorem add_record_failure_characterization (st : Store) (O : String)
    (time_ns : Nat) (req : AddRecordRequest) :
    ((add_record st O time_ns req).1.success = false ↔
      (O = anonymousPrincipal ∨ (strTrim req.title).isEmpty = true ∨
        (strTrim req.record_type).isEmpty = true)) ∧
    ((add_record st O time_ns req).1.success = false →
      (add_record st O time_ns req).2 = st) ∧
    (O = anonymousPrincipal →
      (add_record st O time_ns req).1.message =
        "Anonymous users cannot add records") ∧
    (O ≠ anonymousPrincipal → (strTrim req.title).isEmpty = true →
      (add_record st O time_ns req).1.message = "Title cannot be empty") ∧
    (O ≠ anonymousPrincipal → (strTrim req.title).isEmpty = false →
      (strTrim req.record_type).isEmpty = true →
      (add_record st O time_ns req).1.message =
        "Record type cannot be empty") := by
  by_cases h1 : O = anonymousPrincipal <;>
    by_cases h2 : (strTrim req.title).isEmpty = true <;>
    by_cases h3 : (strTrim req.record_type).isEmpty = true <;>
    simp [add_record, h1, h2, h3]

theorem add_record_failure_characterization_witness :
    (add_record [] anonymousPrincipal 0 bloodTestRequest).1.success = false :=
  (add_record_failure_characterization [] anonymousPrincipal 0
    bloodTestRequest).1.mpr (Or.inl rfl)

/-- Claim C6: for a non-anonymous owner, count equals the length of the
sequence returned by list; for the anonymous owner, count returns 0
rather than an error. -/
theorem get_record_count_eq_list_length (st : Store) (O : String) :
    (O ≠ anonymousPrincipal →
      get_record_count st O = ((get_my_records st O).data.getD []).length) ∧
    get_record_count st anonymousPrincipal = 0 := by
  constructor
  · intro hO
    simp [get_record_count, get_my_records, hO]
  · simp [get_record_count]

theorem get_record_count_eq_list_length_witness :
    get_record_count [] "alice" =
      ((get_my_records [] "alice").data.getD []).length :=
  (get_record_count_eq_list_length [] "alice").1 (by decide)

/-- Claim C7: cross-owner isolation.  Add and delete by owner A leave
the stored sequence of every other owner B untouched, so list and count
for B are unchanged; get for B only ever returns a record stored under
B, and when no record of B carries the requested id it fails with the
NotFound message even if the id names a record of A. -/
theorem cross_owner_isolation (st : Store) (A B : String) (time_ns : Nat)
    (req : AddRecordRequest) (rid : String) (hAB : A ≠ B)
    (hB : B ≠ anonymousPrincipal) :
    storeLookup (add_record st A time_ns req).2 B = storeLookup st B ∧
    storeLookup (delete_record st A rid).2 B = storeLookup st B ∧
    get_my_records (add_record st A time_ns req).2 B = get_my_records st B ∧
    get_record_count (add_record st A time_ns req).2 B =
      get_record_count st B ∧
    get_record_count (delete_record st A rid).2 B = get_record_count st B ∧
    (∀ r l, (get_record_by_id st B rid).data = some l → r ∈ l →
      r ∈ storeGet st B) ∧
    ((∀ r ∈ storeGet st B, r.id ≠ rid) →
      (get_record_by_id st B rid).success = false ∧
      (get_record_by_id st B rid).message =
        "Record not found or access denied") := by
  have hBA : B ≠ A := Ne.symm hAB
  have hadd : storeLookup (add_record st A time_ns req).2 B =
      storeLookup st B := by
    by_cases h1 : A = anonymousPrincipal
    · simp [add_record, h1]
    · by_cases h2 : (strTrim req.title).isEmpty = true
      · simp [add_record, h1, h2]
      · by_cases h3 : (strTrim req.record_type).isEmpty = true
        · simp [add_record, h1, h2, h3]
        · simp [add_record, h1, h2, h3,
            storeLookup_insert_other st A B _ hBA]
  have hdel : storeLookup (delete_record st A rid).2 B =
      storeLookup st B := by
    by_cases h1 : A = anonymousPrincipal
    · simp [delete_record, h1]
    · by_cases h2 : ((storeGet st A).filter (fun r => r.id != rid)).length <
        (storeGet st A).length
      · simp [delete_record, h1, h2, storeLookup_insert_other st A B _ hBA]
      · simp [delete_record, h1, h2]
  refine ⟨hadd, hdel, ?_, ?_, ?_, ?_, ?_⟩
  · simp [get_my_records, hB, storeGet, hadd]
  · simp [get_record_count, hB, storeGet, hadd]
  · simp [get_record_count, hB, storeGet, hdel]
  · intro r l hdata hr
    rw [get_record_by_id, if_neg hB] at hdata
    cases hfind : (storeGet st B).find? (fun x => x.id == rid) with
    | some found =>
      rw [hfind] at hdata
      simp only [Option.some.injEq] at hdata
      subst hdata
      simp only [List.mem_singleton] at hr
      subst hr
      exact List.mem_of_find?_eq_some hfind
    | none =>
      rw [hfind] at hdata
      simp at hdata
  · intro hall
    have hfind : (storeGet st B).find? (fun x => x.id == rid) = none := by
      rw [List.find?_eq_none]
      intro x hx
      simp [hall x hx]
    constructor <;> simp [get_record_by_id, hB, hfind]

theorem cross_owner_isolation_witness :
    storeLookup (add_record dupStore "bob" 5000000000 bloodTestRequest).2
      "alice" = storeLookup dupStore "alice" :=
  (cross_owner_isolation dupStore "bob" "alice" 5000000000 bloodTestRequest
    "alice_1000" (by decide) (by decide)).1

/-- Claim C8: two successful adds by the same owner within the same
timestamp second construct records with identical ids; the second add
appends rather than overwrites, the owner sequence ends with both new
records, and each successful add increases the owner count by exactly
one despite the id collision. -/
theorem add_record_same_second_duplicate_ids (st : Store) (O : String)
    (t1 t2 : Nat) (req1 req2 : AddRecordRequest)
    (hO : O ≠ anonymousPrincipal)
    (hsec : get_current_timestamp t1 = get_current_timestamp t2)
    (ht1 : (strTrim req1.title).isEmpty = false)
    (hc1 : (strTrim req1.record_type).isEmpty = false)
    (ht2 : (strTrim req2.title).isEmpty = false)
    (hc2 : (strTrim req2.record_type).isEmpty = false) :
    (add_record st O t1 req1).1.success = true ∧
    (add_record (add_record st O t1 req1).2 O t2 req2).1.success = true ∧
    storeGet (add_record (add_record st O t1 req1).2 O t2 req2).2 O =
      storeGet st O ++ [mkRecord O t1 req1, mkRecord O t2 req2] ∧
    (mkRecord O t1 req1).id = (mkRecord O t2 req2).id ∧
    get_record_count (add_record st O t1 req1).2 O =
      get_record_count st O + 1 ∧
    get_record_count (add_record (add_record st O t1 req1).2 O t2 req2).2 O =
      get_record_count (add_record st O t1 req1).2 O + 1 := by
  have hid : (mkRecord O t1 req1).id = (mkRecord O t2 req2).id := by
    simp [mkRecord, generate_record_id, hsec]
  have hsucc1 : (add_record st O t1 req1).1.success = true := by
    simp [add_record, hO, ht1, hc1]
  have hsucc2 : ∀ s : Store, (add_record s O t2 req2).1.success = true := by
    intro s; simp [add_record, hO, ht2, hc2]
  have happ1 : storeGet (add_record st O t1 req1).2 O =
      storeGet st O ++ [mkRecord O t1 req1] := by
    simp [add_record, hO, ht1, hc1, storeGet_insert_self]
  have happ2 : ∀ s : Store, storeGet (add_record s O t2 req2).2 O =
      storeGet s O ++ [mkRecord O t2 req2] := by
    intro s; simp [add_record, hO, ht2, hc2, storeGet_insert_self]
  have hcount : ∀ s : Store, get_record_count s O = (storeGet s O).length := by
    intro s; simp [get_record_count, hO]
  refine ⟨hsucc1, hsucc2 _, ?_, hid, ?_, ?_⟩
  · rw [happ2 _, happ1, List.append_assoc]
    rfl
  · rw [hcount _, hcount _, happ1]
    simp
  · rw [hcount _, hcount _, happ2 _]
    simp

theorem add_record_same_second_duplicate_ids_witness :
    (mkRecord "alice" 1000000000000 bloodTestRequest).id =
      (mkRecord "alice" 1000999999999 bloodTestRequest).id :=
  (add_record_same_second_duplicate_ids [] "alice" 1000000000000
    1000999999999 bloodTestRequest bloodTestRequest (by decide) (by decide)
    (by decide) (by decide) (by decide) (by decide)).2.2.2.1

/-- Claim C9: restart idempotence.  Persisting the store, reloading it
from durable storage at process start, and then listing any owner gives
exactly the response from before the restart (persistence is modelled
from the spec, since the durable substrate is the external
stable-structures library, not part of src/); the hypothesis restricts
to genuine map states, whose keys are pairwise distinct. -/
theorem restart_preserves_list (st : Store) (O : String)
    (h : storeKeysNodup st) :
    get_my_records (reloadStore (persistStore st)) O =
      get_my_records st O := by
  by_cases hO : O = anonymousPrincipal
  · simp [get_my_records, hO]
  · simp [get_my_records, hO, storeGet, storeLookup_reload st O h]

theorem restart_preserves_list_witness :
    get_my_records (reloadStore (persistStore dupStore)) "alice" =
      get_my_records dupStore "alice" :=
  restart_preserves_list dupStore "alice"
    (by unfold storeKeysNodup; decide)

/-- Claim C10: a successful get returns as its data a one-element list
holding the earliest record in the owner sequence whose id matches,
exactly as stored; later records with the same id are never the one
returned. -/
theorem get_record_by_id_returns_first_match (st : Store) (O rid : String)
    (hO : O ≠ anonymousPrincipal) (pre post : List HealthRecord)
    (r : HealthRecord) (hsplit : storeGet st O = pre ++ r :: post)
    (hr : r.id = rid) (hpre : ∀ x ∈ pre, x.id ≠ rid) :
    get_record_by_id st O rid =
      { success := true, message := "Record found", data := some [r] } := by
  have hfind : (storeGet st O).find? (fun x => x.id == rid) = some r := by
    rw [hsplit, List.find?_append]
    have h1 : pre.find? (fun x => x.id == rid) = none := by
      rw [List.find?_eq_none]
      intro x hx
      simp [hpre x hx]
    have h2 : (r :: post).find? (fun x => x.id == rid) = some r :=
      List.find?_cons_of_pos post (by simp [hr])
    rw [h1, h2]
    rfl
  simp [get_record_by_id, hO, hfind]

theorem get_record_by_id_returns_first_match_witness :
    (get_record_by_id dupStore "alice" "alice_1000").data =
      some [recDupA] := by
  have h := get_record_by_id_returns_first_match dupStore "alice"
    "alice_1000" (by decide) [] [recDupB, recOther] recDupA (by decide)
    (by decide) (by decide)
  rw [h]

end HealthRecords
